import Mathlib

/-!
Verification development for the instance-refresh rotation script
(`src/main.py`).  The script's three steps are embedded shallowly:

* `get_latest_image` — the Image Resolver (`get_latest_image` in the source):
  sort the registry listing by creation date descending (Python's `sorted`
  is stable, embedded here by a stable insertion sort, extensionally equal)
  and take the first element's image id.
* `launch_template_versions` — the Template Updater: the provider client is
  abstracted by `EC2Responses` (the data the remote calls would return) and
  the mutating calls the function issues are recorded in an `EC2Call` trace.
  The retention while-loop is embedded with explicit fuel, since its body
  never changes its guard; `completed = false` records that the loop had not
  exited within the given fuel.
* `trigger_refresh` — the Refresh Trigger: the per-group loop, with an
  injected failure oracle `fails` modelling a provider error raised by
  `start_instance_refresh` (caught and re-raised unchanged in the source).
* `mainRun` — the conditional orchestration in `main`.
-/

namespace InstanceRefresh

/-- Python's `<` on strings, on the underlying character lists: lexicographic
by Unicode code point, a strict prefix being smaller. -/
def charListLt : List Char → List Char → Bool
  | [], [] => false
  | [], _ :: _ => true
  | _ :: _, [] => false
  | a :: as, b :: bs =>
    if a.toNat < b.toNat then true
    else if b.toNat < a.toNat then false
    else charListLt as bs

/-- `a < b` on creation-date strings, exactly as Python compares them. -/
def dateLt (a b : String) : Bool :=
  charListLt a.data b.data

/-- An image record as returned by the registry listing (`describe_images`):
identifier and creation timestamp (an ISO-8601 string; Python compares the
strings lexicographically, embedded by `dateLt`). -/
structure Image where
  imageId : String
  creationDate : String
deriving DecidableEq

/-- Stable descending insertion used to embed
`sorted(images, key=lambda x: x.CreationDate, reverse=True)`: a later
element is inserted after every already-placed element whose key is
greater than or equal to its own, exactly the stable reverse-sort order. -/
def insertDesc (x : Image) : List Image → List Image
  | [] => [x]
  | y :: ys =>
    if dateLt y.creationDate x.creationDate then x :: y :: ys
    else y :: insertDesc x ys

/-- The stable descending sort of the listing, processing images in listing
order (extensionally equal to Python's stable `sorted` with `reverse=True`). -/
def sortDesc (l : List Image) : List Image :=
  l.foldl (fun acc x => insertDesc x acc) []

/-- `get_latest_image` from the source: sort descending by creation date and
take element 0's image id.  Python raises `IndexError` on an empty listing;
that failure is `none` here. -/
def get_latest_image (images : List Image) : Option String :=
  ((sortDesc images).head?).map Image.imageId

/-- The first element with maximal creation date of `m :: l`, scanning left
to right (the seed `m` wins ties against later elements). -/
def firstMaxAux (m : Image) : List Image → Image
  | [] => m
  | x :: xs => firstMaxAux (if dateLt m.creationDate x.creationDate then x else m) xs

/-- One entry of `template.LaunchTemplateVersions` as returned by
`describe_launch_template_versions`: the fields the script reads, plus the
`DefaultVersion` flag that the response carries but the script never reads. -/
structure LTVersion where
  launchTemplateId : String
  versionNumber : Nat
  imageId : String
  defaultVersion : Bool
deriving DecidableEq

/-- A mutating EC2 call issued by `launch_template_versions`, with the
arguments the script passes (`create_launch_template_version` passes
`LaunchTemplateData = {ImageId: image_id}`, so only the image field is
overridden — recorded as the single `imageId` argument). -/
inductive EC2Call where
  | createVersion (launchTemplateId : String) (sourceVersion : Nat) (imageId : String)
  | modifyDefault (launchTemplateId : String) (defaultVersion : Nat)
  | deleteVersion (launchTemplateId : String) (version : Nat)
deriving DecidableEq

/-- The `output` dict returned by `launch_template_versions` on the stale
branch. -/
structure RotationResult where
  current_image_id : String
  template_id : String
  template_version : Nat
  new_template_version : Nat
deriving DecidableEq

/-- The data the provider returns to the two read/create calls of
`launch_template_versions`: the version listing, and the `VersionNumber`
that `create_launch_template_version`'s response would carry. -/
structure EC2Responses where
  launchTemplateVersions : List LTVersion
  createdVersionNumber : Nat
deriving DecidableEq

/-- Outcome of one run of `launch_template_versions`: the trace of mutating
calls, the returned value (`none` embeds Python's `return` of `None`), and
whether the function actually ran to completion — `completed = false` means
the retention while-loop had still not exited after `fuel` iterations. -/
structure UpdaterRun where
  calls : List EC2Call
  result : Option RotationResult
  completed : Bool
deriving DecidableEq

/-- The retention while-loop of `launch_template_versions`:
`while len(versions) > 10: delete versions[-1].VersionNumber`.
The loop body never modifies `versions`, so the guard is re-evaluated on the
same list each iteration; `fuel` bounds how many iterations we unfold, and
the returned flag records whether the guard became false (loop exited). -/
def pruneLoop (templateId : String) (versions : List LTVersion) :
    Nat → List EC2Call → List EC2Call × Bool
  | 0, calls => (calls, decide (versions.length ≤ 10))
  | fuel + 1, calls =>
    if versions.length > 10 then
      match versions.getLast? with
      | some v =>
        pruneLoop templateId versions fuel
          (calls ++ [EC2Call.deleteVersion templateId v.versionNumber])
      | none => (calls, false)
    else (calls, true)

/-- `launch_template_versions` from the source.  The listing's element 0
supplies `template_id`, `template_version` and `template_image`; a stale
image triggers create + modify-default + the retention loop; an up-to-date
image returns `None` with no mutating call.  An empty listing is `none`
(Python's `IndexError` on `[0]`, propagated). -/
def launch_template_versions (resp : EC2Responses) (image_id : String) (fuel : Nat) :
    Option UpdaterRun :=
  match resp.launchTemplateVersions with
  | [] => none
  | v0 :: _ =>
    let template_id := v0.launchTemplateId
    let template_version := v0.versionNumber
    let template_image := v0.imageId
    if template_image ≠ image_id then
      let default_version := resp.createdVersionNumber
      let calls := [EC2Call.createVersion template_id template_version image_id,
                    EC2Call.modifyDefault template_id default_version]
      match pruneLoop template_id resp.launchTemplateVersions fuel calls with
      | (calls2, true) =>
        some { calls := calls2,
               result := some { current_image_id := template_image,
                                template_id := template_id,
                                template_version := template_version,
                                new_template_version := resp.createdVersionNumber },
               completed := true }
      | (calls2, false) =>
        some { calls := calls2, result := none, completed := false }
    else
      some { calls := [], result := none, completed := true }

/-- Recognizer for `create_launch_template_version` calls in a trace. -/
def isCreate : EC2Call → Bool
  | EC2Call.createVersion _ _ _ => true
  | _ => false

/-- Recognizer for `modify_launch_template` calls in a trace. -/
def isModifyDefault : EC2Call → Bool
  | EC2Call.modifyDefault _ _ => true
  | _ => false

/-- The version the provider would report as default: the listing entry with
the `DefaultVersion` flag (used only to state properties; the script itself
never consults the flag). -/
def currentDefault (vs : List LTVersion) : Option LTVersion :=
  vs.find? (fun v => v.defaultVersion)

/-- One auto-scaling group from the `describe_auto_scaling_groups` response. -/
structure ASGGroup where
  autoScalingGroupName : String
deriving DecidableEq

/-- One `start_instance_refresh` request with the arguments the script
passes. -/
structure RefreshCall where
  autoScalingGroupName : String
  strategy : String
  launchTemplateId : String
  version : Nat
deriving DecidableEq

/-- The per-group loop of `trigger_refresh`.  `fails` injects a provider
error for a group's `start_instance_refresh` call (`some e` = the call
raises `ClientError e`); the source catches it and immediately re-raises it
unchanged, so the loop stops and `e` propagates.  The first component
accumulates the successfully issued requests. -/
def refreshLoop (template : RotationResult) (fails : String → Option String) :
    List ASGGroup → List RefreshCall → List RefreshCall × Option String
  | [], calls => (calls, none)
  | g :: gs, calls =>
    match fails g.autoScalingGroupName with
    | some e => (calls, some e)
    | none =>
      refreshLoop template fails gs
        (calls ++ [{ autoScalingGroupName := g.autoScalingGroupName,
                     strategy := "Rolling",
                     launchTemplateId := template.template_id,
                     version := template.new_template_version }])

/-- `trigger_refresh` from the source: iterate over the listed groups,
issuing one `start_instance_refresh` per group with strategy `Rolling`, the
rotation result's template id and its new version number. -/
def trigger_refresh (groups : List ASGGroup) (template : RotationResult)
    (fails : String → Option String) : List RefreshCall × Option String :=
  refreshLoop template fails groups []

/-- Observable outcome of one `main` run. -/
structure MainRun where
  ec2Calls : List EC2Call
  asgListingCalled : Bool
  refreshCalls : List RefreshCall
  refreshError : Option String
  completed : Bool

/-- The workflow of `main` after session setup: resolve the image, run the
updater, and only when the updater returned a result (`template is not
None`) build the autoscaling client and call `trigger_refresh`.  `none`
embeds an uncaught exception before that point (empty image listing or
empty version listing). -/
def mainRun (images : List Image) (resp : EC2Responses) (groups : List ASGGroup)
    (fails : String → Option String) (fuel : Nat) : Option MainRun :=
  match get_latest_image images with
  | none => none
  | some image_id =>
    match launch_template_versions resp image_id fuel with
    | none => none
    | some run =>
      if run.completed then
        match run.result with
        | some t =>
          match trigger_refresh groups t fails with
          | (rc, err) =>
            some { ec2Calls := run.calls, asgListingCalled := true,
                   refreshCalls := rc, refreshError := err, completed := true }
        | none =>
          some { ec2Calls := run.calls, asgListingCalled := false,
                 refreshCalls := [], refreshError := none, completed := true }
      else
        some { ec2Calls := run.calls, asgListingCalled := false,
               refreshCalls := [], refreshError := none, completed := false }

/-- Abbreviation for one listing entry of template `lt-0abc`. -/
def ltv (n : Nat) (img : String) (dflt : Bool) : LTVersion :=
  { launchTemplateId := "lt-0abc", versionNumber := n,
    imageId := img, defaultVersion := dflt }

/-- A concrete version listing with 11 entries, versions 1..11 in listing
order (the provider lists versions in ascending version-number order);
version 11 is the default and carries the currently rolled-out image. -/
def elevenVersions : List LTVersion :=
  [ltv 1 "ami-old" false, ltv 2 "ami-old" false, ltv 3 "ami-old" false,
   ltv 4 "ami-old" false, ltv 5 "ami-old" false, ltv 6 "ami-old" false,
   ltv 7 "ami-old" false, ltv 8 "ami-old" false, ltv 9 "ami-old" false,
   ltv 10 "ami-old" false, ltv 11 "ami-current" true]

/-- Concrete registry images for witnesses; `imgB` and `imgC` share the
maximal creation date, `imgB` listed first. -/
def imgA : Image := { imageId := "ami-a", creationDate := "2024-01-01" }

/-- Second concrete image (first of the two tied at the maximum). -/
def imgB : Image := { imageId := "ami-b", creationDate := "2024-03-01" }

/-- Third concrete image (tied with `imgB`, listed later). -/
def imgC : Image := { imageId := "ami-c", creationDate := "2024-03-01" }

/-- A concrete two-entry listing in which the default-flagged version is not
element 0: element 0 is the original version 1 (image `ami-old`), while the
default is version 5 with image `ami-new`. -/
def defaultNotFirst : List LTVersion :=
  [{ launchTemplateId := "lt-0abc", versionNumber := 1,
     imageId := "ami-old", defaultVersion := false },
   { launchTemplateId := "lt-0abc", versionNumber := 5,
     imageId := "ami-new", defaultVersion := true }]

/-- How the retention loop of the failure-aware model ends: the guard became
false (normal exit), a provider error was raised by a delete call and
propagates unchanged, or the loop had still not exited within the fuel. -/
inductive LoopOutcome where
  | exited
  | raised (e : String)
  | outOfFuel
deriving DecidableEq

/-- How a failure-aware run of `launch_template_versions` ends: a normal
return value (`none` embeds Python's `return None`), a `ClientError` raised
by some provider call and propagated unchanged, the `IndexError` on an empty
listing, or the retention loop not exiting within the fuel. -/
inductive UpdOutcome where
  | ok (result : Option RotationResult)
  | raised (e : String)
  | indexError
  | outOfFuel
deriving DecidableEq

/-- How a failure-aware run of the whole `main` workflow ends. -/
inductive RunOutcome where
  | finished
  | raised (e : String)
  | indexError
  | outOfFuel
deriving DecidableEq

/-- Failure injection for the EC2 calls of `launch_template_versions`: for
each call site, `some e` means that invocation raises `ClientError e`
(`deleteFail` is indexed by the retention-loop iteration).  `none`
everywhere reproduces the failure-free model. -/
structure EC2Failures where
  describeVersionsFail : Option String
  createFail : Option String
  modifyFail : Option String
  deleteFail : Nat → Option String

/-- Failure injection for the autoscaling calls of `trigger_refresh`:
the group listing, and `start_instance_refresh` per group name. -/
structure ASGFailures where
  describeGroupsFail : Option String
  startRefreshFail : String → Option String

/-- The no-failure injection for the EC2 calls. -/
def noFailEC2 : EC2Failures :=
  { describeVersionsFail := none, createFail := none, modifyFail := none,
    deleteFail := fun _ => none }

/-- The retention while-loop with injected delete failures.  The trace lists
the delete requests in the order they are issued; when the outcome is
`raised e`, the last listed request is the one the provider rejected (the
source neither catches the error nor retries, so the loop stops there and
`e` propagates), and all requests before it stay committed. -/
def pruneLoopF (templateId : String) (versions : List LTVersion)
    (deleteFail : Nat → Option String) :
    Nat → Nat → List EC2Call → List EC2Call × LoopOutcome
  | 0, _, calls =>
    if versions.length > 10 then (calls, LoopOutcome.outOfFuel)
    else (calls, LoopOutcome.exited)
  | fuel + 1, k, calls =>
    if versions.length > 10 then
      match versions.getLast? with
      | some v =>
        match deleteFail k with
        | some e =>
          (calls ++ [EC2Call.deleteVersion templateId v.versionNumber],
           LoopOutcome.raised e)
        | none =>
          pruneLoopF templateId versions deleteFail fuel (k + 1)
            (calls ++ [EC2Call.deleteVersion templateId v.versionNumber])
      | none => (calls, LoopOutcome.outOfFuel)
    else (calls, LoopOutcome.exited)

/-- `launch_template_versions` with a failure injectable at every provider
call, in source order: the describe (its `except` clause re-raises the error
unchanged), the element-0 access, the create (same re-raise pattern), the
modify-default (not wrapped at all: the error propagates directly), and the
retention loop's deletes.  The trace lists the mutating requests as issued;
on `raised e` the last listed request is the rejected one and everything
before it remains committed — the source attempts no rollback. -/
def launch_template_versions_f (resp : EC2Responses) (f : EC2Failures)
    (image_id : String) (fuel : Nat) : List EC2Call × UpdOutcome :=
  match f.describeVersionsFail with
  | some e => ([], UpdOutcome.raised e)
  | none =>
    match resp.launchTemplateVersions with
    | [] => ([], UpdOutcome.indexError)
    | v0 :: _ =>
      if v0.imageId ≠ image_id then
        let c1 := EC2Call.createVersion v0.launchTemplateId v0.versionNumber image_id
        match f.createFail with
        | some e => ([c1], UpdOutcome.raised e)
        | none =>
          let c2 := EC2Call.modifyDefault v0.launchTemplateId resp.createdVersionNumber
          match f.modifyFail with
          | some e => ([c1, c2], UpdOutcome.raised e)
          | none =>
            match pruneLoopF v0.launchTemplateId resp.launchTemplateVersions
                f.deleteFail fuel 0 [c1, c2] with
            | (calls, LoopOutcome.exited) =>
              (calls, UpdOutcome.ok (some
                { current_image_id := v0.imageId,
                  template_id := v0.launchTemplateId,
                  template_version := v0.versionNumber,
                  new_template_version := resp.createdVersionNumber }))
            | (calls, LoopOutcome.raised e) => (calls, UpdOutcome.raised e)
            | (calls, LoopOutcome.outOfFuel) => (calls, UpdOutcome.outOfFuel)
      else ([], UpdOutcome.ok none)

/-- `trigger_refresh` with a failure injectable at the group listing (its
`except` clause re-raises unchanged) and per `start_instance_refresh` call
(likewise), reusing `refreshLoop` for the per-group loop. -/
def trigger_refresh_f (groups : List ASGGroup) (template : RotationResult)
    (f : ASGFailures) : List RefreshCall × Option String :=
  match f.describeGroupsFail with
  | some e => ([], some e)
  | none => refreshLoop template f.startRefreshFail groups []

/-- The whole `main` workflow with failures injectable at every provider
call; `describeImagesFail` models `describe_images` raising inside
`get_latest_image` (not wrapped in the source: it propagates directly).  A
raised error anywhere ends the run with that same error; the mutating calls
already issued stay in the outcome — nothing is compensated. -/
def mainRun_f (describeImagesFail : Option String) (images : List Image)
    (resp : EC2Responses) (ef : EC2Failures) (groups : List ASGGroup)
    (af : ASGFailures) (fuel : Nat) :
    List EC2Call × List RefreshCall × RunOutcome :=
  match describeImagesFail with
  | some e => ([], [], RunOutcome.raised e)
  | none =>
    match get_latest_image images with
    | none => ([], [], RunOutcome.indexError)
    | some image_id =>
      match launch_template_versions_f resp ef image_id fuel with
      | (ec2, UpdOutcome.raised e) => (ec2, [], RunOutcome.raised e)
      | (ec2, UpdOutcome.indexError) => (ec2, [], RunOutcome.indexError)
      | (ec2, UpdOutcome.outOfFuel) => (ec2, [], RunOutcome.outOfFuel)
      | (ec2, UpdOutcome.ok none) => (ec2, [], RunOutcome.finished)
      | (ec2, UpdOutcome.ok (some t)) =>
        match trigger_refresh_f groups t af with
        | (rc, some e) => (ec2, rc, RunOutcome.raised e)
        | (rc, none) => (ec2, rc, RunOutcome.finished)

end InstanceRefresh

namespace InstanceRefresh

theorem charListLt_irrefl : ∀ l, charListLt l l = false := by
  intro l
  induction l with
  | nil => rfl
  | cons a as ih => simp [charListLt, ih]

theorem charListLt_asymm : ∀ a b, charListLt a b = true → charListLt b a = false := by
  intro a
  induction a with
  | nil =>
    intro b h
    cases b with
    | nil => simp [charListLt] at h
    | cons y bs => simp [charListLt]
  | cons x as ih =>
    intro b h
    cases b with
    | nil => simp [charListLt] at h
    | cons y bs =>
      simp only [charListLt] at h ⊢
      by_cases h1 : x.toNat < y.toNat
      · have h2 : ¬ y.toNat < x.toNat := by omega
        simp [h1, h2]
      · by_cases h2 : y.toNat < x.toNat
        · simp [h1, h2] at h
        · simp [h1, h2] at h
          simp [h1, h2, ih bs h]

theorem charListLt_notLt_trans : ∀ a b c, charListLt a b = false →
    charListLt b c = false → charListLt a c = false := by
  intro a
  induction a with
  | nil =>
    intro b c h1 h2
    cases b with
    | nil => exact h2
    | cons y bs => simp [charListLt] at h1
  | cons x as ih =>
    intro b c h1 h2
    cases b with
    | nil =>
      cases c with
      | nil => simp [charListLt]
      | cons z cs => simp [charListLt] at h2
    | cons y bs =>
      cases c with
      | nil => simp [charListLt]
      | cons z cs =>
        simp only [charListLt] at h1 h2 ⊢
        by_cases hxy : x.toNat < y.toNat
        · simp [hxy] at h1
        · by_cases hyz : y.toNat < z.toNat
          · simp [hyz] at h2
          · have hxz : ¬ x.toNat < z.toNat := by omega
            by_cases hzx : z.toNat < x.toNat
            · simp [hxz, hzx]
            · have hyx : ¬ y.toNat < x.toNat := by omega
              have hzy : ¬ z.toNat < y.toNat := by omega
              simp [hxy, hyx] at h1
              simp [hyz, hzy] at h2
              simp [hxz, hzx, ih bs cs h1 h2]

theorem charListLt_lt_of_lt_of_ge : ∀ a b c, charListLt a b = true →
    charListLt c b = false → charListLt a c = true := by
  intro a
  induction a with
  | nil =>
    intro b c h1 h2
    cases b with
    | nil => simp [charListLt] at h1
    | cons y bs =>
      cases c with
      | nil => simp [charListLt] at h2
      | cons z cs => simp [charListLt]
  | cons x as ih =>
    intro b c h1 h2
    cases b with
    | nil => simp [charListLt] at h1
    | cons y bs =>
      cases c with
      | nil => simp [charListLt] at h2
      | cons z cs =>
        simp only [charListLt] at h1 h2 ⊢
        by_cases hzy : z.toNat < y.toNat
        · simp [hzy] at h2
        · by_cases hxy : x.toNat < y.toNat
          · have hxz : x.toNat < z.toNat := by omega
            simp [hxz]
          · by_cases hyx : y.toNat < x.toNat
            · simp [hxy, hyx] at h1
            · simp [hxy, hyx] at h1
              by_cases hyz : y.toNat < z.toNat
              · have hxz : x.toNat < z.toNat := by omega
                simp [hxz]
              · have hxz : ¬ x.toNat < z.toNat := by omega
                have hzx : ¬ z.toNat < x.toNat := by omega
                simp [hyz, hzy] at h2
                simp [hxz, hzx, ih bs cs h1 h2]

theorem charListLt_lt_of_ge_of_lt : ∀ a b c, charListLt b a = false →
    charListLt b c = true → charListLt a c = true := by
  intro a
  induction a with
  | nil =>
    intro b c h1 h2
    cases c with
    | nil =>
      cases b with
      | nil => simp [charListLt] at h2
      | cons y bs => simp [charListLt] at h2
    | cons z cs => simp [charListLt]
  | cons x as ih =>
    intro b c h1 h2
    cases b with
    | nil => simp [charListLt] at h1
    | cons y bs =>
      cases c with
      | nil => simp [charListLt] at h2
      | cons z cs =>
        simp only [charListLt] at h1 h2 ⊢
        by_cases hyx : y.toNat < x.toNat
        · simp [hyx] at h1
        · by_cases hyz : y.toNat < z.toNat
          · have hxz : x.toNat < z.toNat := by omega
            simp [hxz]
          · by_cases hzy : z.toNat < y.toNat
            · simp [hyz, hzy] at h2
            · simp [hyz, hzy] at h2
              by_cases hxy : x.toNat < y.toNat
              · have hxz : x.toNat < z.toNat := by omega
                simp [hxz]
              · have hxz : ¬ x.toNat < z.toNat := by omega
                have hzx : ¬ z.toNat < x.toNat := by omega
                simp [hxy, hyx] at h1
                simp [hxz, hzx, ih bs cs h1 h2]

theorem dateLt_irrefl (a : String) : dateLt a a = false :=
  charListLt_irrefl _

theorem dateLt_asymm {a b : String} (h : dateLt a b = true) : dateLt b a = false :=
  charListLt_asymm _ _ h

theorem dateLt_notLt_trans {a b c : String} (h1 : dateLt a b = false)
    (h2 : dateLt b c = false) : dateLt a c = false :=
  charListLt_notLt_trans _ _ _ h1 h2

theorem dateLt_lt_of_lt_of_ge {a b c : String} (h1 : dateLt a b = true)
    (h2 : dateLt c b = false) : dateLt a c = true :=
  charListLt_lt_of_lt_of_ge _ _ _ h1 h2

theorem dateLt_lt_of_ge_of_lt {a b c : String} (h1 : dateLt b a = false)
    (h2 : dateLt b c = true) : dateLt a c = true :=
  charListLt_lt_of_ge_of_lt _ _ _ h1 h2

theorem insertDesc_head (x : Image) (acc : List Image) :
    (insertDesc x acc).head? =
      some (match acc.head? with
            | none => x
            | some y => if dateLt y.creationDate x.creationDate then x else y) := by
  cases acc with
  | nil => rfl
  | cons y ys =>
    simp only [insertDesc, List.head?]
    by_cases h : dateLt y.creationDate x.creationDate = true
    · simp [h]
    · simp [h]

theorem sortDesc_foldl_head (l : List Image) :
    ∀ (acc : List Image) (m : Image), acc.head? = some m →
      (l.foldl (fun a x => insertDesc x a) acc).head? = some (firstMaxAux m l) := by
  induction l with
  | nil => intro acc m h; simpa [firstMaxAux] using h
  | cons x xs ih =>
    intro acc m h
    simp only [List.foldl_cons, firstMaxAux]
    apply ih
    rw [insertDesc_head, h]

theorem get_latest_image_cons (x : Image) (xs : List Image) :
    get_latest_image (x :: xs) = some (firstMaxAux x xs).imageId := by
  unfold get_latest_image sortDesc
  rw [List.foldl_cons, sortDesc_foldl_head xs (insertDesc x []) x (by rfl)]
  rfl

theorem firstMaxAux_max (l : List Image) : ∀ m : Image,
    dateLt (firstMaxAux m l).creationDate m.creationDate = false ∧
      ∀ y ∈ l, dateLt (firstMaxAux m l).creationDate y.creationDate = false := by
  induction l with
  | nil => intro m; exact ⟨dateLt_irrefl _, by simp⟩
  | cons x xs ih =>
    intro m
    simp only [firstMaxAux]
    obtain ⟨h1, h2⟩ := ih (if dateLt m.creationDate x.creationDate then x else m)
    have hm : dateLt (if dateLt m.creationDate x.creationDate then x
        else m).creationDate m.creationDate = false := by
      by_cases h : dateLt m.creationDate x.creationDate = true
      · simp only [if_pos h]
        exact dateLt_asymm h
      · simp only [Bool.not_eq_true] at h
        simp only [h, if_false]
        exact dateLt_irrefl _
    have hx : dateLt (if dateLt m.creationDate x.creationDate then x
        else m).creationDate x.creationDate = false := by
      by_cases h : dateLt m.creationDate x.creationDate = true
      · simp only [if_pos h]
        exact dateLt_irrefl _
      · simp only [Bool.not_eq_true] at h
        simp only [h, if_false]
        exact h
    refine ⟨dateLt_notLt_trans h1 hm, ?_⟩
    intro y hy
    rcases List.mem_cons.mp hy with hy | hy
    · subst hy
      exact dateLt_notLt_trans h1 hx
    · exact h2 y hy

theorem firstMaxAux_split (l : List Image) : ∀ m : Image,
    ∃ l₁ l₂, m :: l = l₁ ++ (firstMaxAux m l) :: l₂ ∧
      ∀ y ∈ l₁, dateLt y.creationDate (firstMaxAux m l).creationDate = true := by
  induction l with
  | nil => intro m; exact ⟨[], [], rfl, by simp⟩
  | cons x xs ih =>
    intro m
    simp only [firstMaxAux]
    by_cases h : dateLt m.creationDate x.creationDate = true
    · simp only [if_pos h]
      obtain ⟨l₁, l₂, heq, hlt⟩ := ih x
      refine ⟨m :: l₁, l₂, ?_, ?_⟩
      · rw [List.cons_append, ← heq]
      · intro y hy
        rcases List.mem_cons.mp hy with hy | hy
        · subst hy
          exact dateLt_lt_of_lt_of_ge h (firstMaxAux_max xs x).1
        · exact hlt y hy
    · rw [if_neg h]
      simp only [Bool.not_eq_true] at h
      obtain ⟨l₁, l₂, heq, hlt⟩ := ih m
      cases l₁ with
      | nil =>
        simp only [List.nil_append] at heq
        refine ⟨[], x :: xs, ?_, by simp⟩
        rw [List.nil_append, ← (List.cons_eq_cons.mp heq).1]
      | cons a t =>
        simp only [List.cons_append] at heq
        obtain ⟨ha, hxs⟩ := List.cons_eq_cons.mp heq
        have hmlt : dateLt m.creationDate (firstMaxAux m xs).creationDate = true := by
          have := hlt a (List.mem_cons_self a t)
          rwa [← ha] at this
        refine ⟨m :: x :: t, l₂, ?_, ?_⟩
        · calc m :: x :: xs = m :: x :: (t ++ firstMaxAux m xs :: l₂) := by rw [← hxs]
            _ = (m :: x :: t) ++ firstMaxAux m xs :: l₂ := by simp
        · intro y hy
          rcases List.mem_cons.mp hy with hy | hy
          · subst hy
            exact hmlt
          rcases List.mem_cons.mp hy with hy | hy
          · subst hy
            exact dateLt_lt_of_ge_of_lt h hmlt
          · have : y ∈ a :: t := List.mem_cons_of_mem a hy
            exact hlt y this

theorem pruneLoop_gt (templateId : String) (versions : List LTVersion) (v : LTVersion)
    (hlen : versions.length > 10) (hlast : versions.getLast? = some v) :
    ∀ (fuel : Nat) (calls : List EC2Call),
      pruneLoop templateId versions fuel calls =
        (calls ++ List.replicate fuel (EC2Call.deleteVersion templateId v.versionNumber),
         false) := by
  intro fuel
  induction fuel with
  | zero =>
    intro calls
    simp [pruneLoop, Nat.not_le.mpr hlen]
  | succ n ih =>
    intro calls
    simp only [pruneLoop, if_pos hlen, hlast]
    rw [ih]
    simp [List.replicate_succ]

theorem pruneLoop_le (templateId : String) (versions : List LTVersion)
    (hlen : versions.length ≤ 10) :
    ∀ (fuel : Nat) (calls : List EC2Call),
      pruneLoop templateId versions fuel calls = (calls, true) := by
  intro fuel calls
  cases fuel with
  | zero => simp [pruneLoop, hlen]
  | succ n => simp [pruneLoop, Nat.not_lt.mpr hlen]

theorem pruneLoop_calls_extend (templateId : String) (versions : List LTVersion) :
    ∀ (fuel : Nat) (calls : List EC2Call), ∃ dels,
      (pruneLoop templateId versions fuel calls).1 = calls ++ dels ∧
      ∀ c ∈ dels, ∃ n, c = EC2Call.deleteVersion templateId n := by
  intro fuel
  induction fuel with
  | zero => intro calls; exact ⟨[], by simp [pruneLoop], by simp⟩
  | succ n ih =>
    intro calls
    by_cases h : versions.length > 10
    · cases hlast : versions.getLast? with
      | none => exact ⟨[], by simp [pruneLoop, h, hlast], by simp⟩
      | some v =>
        obtain ⟨dels, hd1, hd2⟩ :=
          ih (calls ++ [EC2Call.deleteVersion templateId v.versionNumber])
        refine ⟨EC2Call.deleteVersion templateId v.versionNumber :: dels, ?_, ?_⟩
        · simp only [pruneLoop, if_pos h, hlast]
          rw [hd1]
          simp
        · intro c hc
          rcases List.mem_cons.mp hc with hc | hc
          · exact ⟨v.versionNumber, hc⟩
          · exact hd2 c hc
    · exact ⟨[], by simp [pruneLoop, h], by simp⟩

theorem launch_template_versions_stale (resp : EC2Responses) (image_id : String)
    (fuel : Nat) (v0 : LTVersion) (rest : List LTVersion)
    (h1 : resp.launchTemplateVersions = v0 :: rest) (h2 : v0.imageId ≠ image_id) :
    launch_template_versions resp image_id fuel =
      match pruneLoop v0.launchTemplateId resp.launchTemplateVersions fuel
          [EC2Call.createVersion v0.launchTemplateId v0.versionNumber image_id,
           EC2Call.modifyDefault v0.launchTemplateId resp.createdVersionNumber] with
      | (calls2, true) =>
          some { calls := calls2,
                 result := some { current_image_id := v0.imageId,
                                  template_id := v0.launchTemplateId,
                                  template_version := v0.versionNumber,
                                  new_template_version := resp.createdVersionNumber },
                 completed := true }
      | (calls2, false) =>
          some { calls := calls2, result := none, completed := false } := by
  unfold launch_template_versions
  rw [h1]
  simp [h2]

theorem launch_template_versions_current (resp : EC2Responses) (image_id : String)
    (fuel : Nat) (v0 : LTVersion) (rest : List LTVersion)
    (h1 : resp.launchTemplateVersions = v0 :: rest) (h2 : v0.imageId = image_id) :
    launch_template_versions resp image_id fuel =
      some { calls := [], result := none, completed := true } := by
  unfold launch_template_versions
  rw [h1]
  simp [h2]

/-- C1: the claim says pruning deletes the oldest versions first in
version-number-ascending order and stops once 10 remain (with 11
pre-existing versions, exactly versions 1 and 2 go).  The code disagrees:
the loop guard `len(versions) > 10` is re-evaluated on a list its body never
changes, so on the 11-entry listing the run issues `fuel` delete calls — one
per unfolded iteration, every one of them for version 11, the last listed
(newest) — never returns, and never reaches the ≤ 10 state. -/
theorem eleven_versions_prune_deletes_newest_forever (fuel : Nat) :
    launch_template_versions ⟨elevenVersions, 12⟩ "ami-new" fuel =
      some { calls := EC2Call.createVersion "lt-0abc" 1 "ami-new" ::
                      EC2Call.modifyDefault "lt-0abc" 12 ::
                      List.replicate fuel (EC2Call.deleteVersion "lt-0abc" 11),
             result := none, completed := false } := by
  rw [launch_template_versions_stale ⟨elevenVersions, 12⟩ "ami-new" fuel
        (ltv 1 "ami-old" false) _ rfl (by decide)]
  rw [pruneLoop_gt (ltv 1 "ami-old" false).launchTemplateId
        (⟨elevenVersions, 12⟩ : EC2Responses).launchTemplateVersions
        (ltv 11 "ami-current" true) (by decide) (by rfl) fuel]
  rfl

/-- C1 witness: the run at fuel 2 on the 11-entry listing, showing the two
issued deletes both target version 11. -/
theorem eleven_versions_prune_deletes_newest_forever_witness :
    launch_template_versions ⟨elevenVersions, 12⟩ "ami-new" 2 =
      some { calls := [EC2Call.createVersion "lt-0abc" 1 "ami-new",
                       EC2Call.modifyDefault "lt-0abc" 12,
                       EC2Call.deleteVersion "lt-0abc" 11,
                       EC2Call.deleteVersion "lt-0abc" 11],
             result := none, completed := false } :=
  eleven_versions_prune_deletes_newest_forever 2

/-- C2: the claim says the pruning while-loop always terminates.  The code
disagrees: whenever the captured version list has more than 10 entries the
guard stays true forever (the body never shrinks the list), so after any
number `fuel` of unfolded iterations the loop has still not exited. -/
theorem pruneLoop_never_exits_over_threshold (templateId : String)
    (versions : List LTVersion) (fuel : Nat) (calls : List EC2Call)
    (h : versions.length > 10) :
    (pruneLoop templateId versions fuel calls).2 = false := by
  cases hlast : versions.getLast? with
  | none =>
    rw [List.getLast?_eq_none_iff] at hlast
    subst hlast
    simp at h
  | some v => rw [pruneLoop_gt templateId versions v h hlast]

/-- C2 witness: the loop on the 11-entry listing has not exited after 3
iterations. -/
theorem pruneLoop_never_exits_over_threshold_witness :
    (pruneLoop "lt-0abc" elevenVersions 3 []).2 = false :=
  pruneLoop_never_exits_over_threshold "lt-0abc" elevenVersions 3 [] (by decide)

/-- C3 counterexample: on the `defaultNotFirst` listing the default-flagged
version (number 5) already carries the resolved image `ami-new`, yet the
updater — which compares against element 0's image instead — issues two
mutating calls and returns a rotation result. -/
theorem default_image_current_still_mutates :
    (currentDefault defaultNotFirst).map LTVersion.imageId = some "ami-new" ∧
    launch_template_versions ⟨defaultNotFirst, 6⟩ "ami-new" 5 =
      some { calls := [EC2Call.createVersion "lt-0abc" 1 "ami-new",
                       EC2Call.modifyDefault "lt-0abc" 6],
             result := some { current_image_id := "ami-old", template_id := "lt-0abc",
                              template_version := 1, new_template_version := 6 },
             completed := true } :=
  ⟨rfl, by decide⟩

/-- C3 (amended): if the image embedded in the FIRST LISTED version of the
describe response equals the resolved image id, the updater issues zero
mutating calls and returns no rotation result. -/
theorem first_listed_image_current_no_mutation (resp : EC2Responses)
    (image_id : String) (fuel : Nat) (v0 : LTVersion) (rest : List LTVersion)
    (h1 : resp.launchTemplateVersions = v0 :: rest) (h2 : v0.imageId = image_id) :
    launch_template_versions resp image_id fuel =
      some { calls := [], result := none, completed := true } :=
  launch_template_versions_current resp image_id fuel v0 rest h1 h2

/-- C3 witness: the amended statement evaluated on a concrete listing whose
first element already carries the resolved image. -/
theorem first_listed_image_current_no_mutation_witness :
    launch_template_versions ⟨defaultNotFirst, 6⟩ "ami-old" 4 =
      some { calls := [], result := none, completed := true } :=
  first_listed_image_current_no_mutation ⟨defaultNotFirst, 6⟩ "ami-old" 4
    (ltv 1 "ami-old" false) [ltv 5 "ami-new" true] rfl rfl

/-- C4 counterexample: the default-flagged version is number 5, but the one
created version uses SourceVersion 1 — the first listed version, not the
current default —, so the new version is not sourced from the default. -/
theorem create_source_is_not_default :
    (currentDefault defaultNotFirst).map LTVersion.versionNumber = some 5 ∧
    launch_template_versions ⟨defaultNotFirst, 6⟩ "ami-fresh" 5 =
      some { calls := [EC2Call.createVersion "lt-0abc" 1 "ami-fresh",
                       EC2Call.modifyDefault "lt-0abc" 6],
             result := some { current_image_id := "ami-old", template_id := "lt-0abc",
                              template_version := 1, new_template_version := 6 },
             completed := true } ∧
    (1 : Nat) ≠ 5 :=
  ⟨rfl, by decide, by decide⟩

/-- C4 (amended): whenever the FIRST LISTED version's image differs from the
resolved image, the updater creates exactly one new version — sourced from
that first listed version, overriding only the image id — and immediately
afterwards promotes the created version (the version number carried by the
create response) to be the template's default. -/
theorem stale_image_creates_once_and_promotes (resp : EC2Responses)
    (image_id : String) (fuel : Nat) (v0 : LTVersion) (rest : List LTVersion)
    (h1 : resp.launchTemplateVersions = v0 :: rest) (h2 : v0.imageId ≠ image_id) :
    ∃ u, launch_template_versions resp image_id fuel = some u ∧
      u.calls.take 2 =
        [EC2Call.createVersion v0.launchTemplateId v0.versionNumber image_id,
         EC2Call.modifyDefault v0.launchTemplateId resp.createdVersionNumber] ∧
      (u.calls.filter isCreate).length = 1 ∧
      (u.calls.filter isModifyDefault).length = 1 := by
  rw [launch_template_versions_stale resp image_id fuel v0 rest h1 h2]
  obtain ⟨dels, hd1, hd2⟩ := pruneLoop_calls_extend v0.launchTemplateId
    resp.launchTemplateVersions fuel
    [EC2Call.createVersion v0.launchTemplateId v0.versionNumber image_id,
     EC2Call.modifyDefault v0.launchTemplateId resp.createdVersionNumber]
  have hdel : ∀ c ∈ dels, ¬ (isCreate c = true) ∧ ¬ (isModifyDefault c = true) := by
    intro c hc
    obtain ⟨n, rfl⟩ := hd2 c hc
    exact ⟨by simp [isCreate], by simp [isModifyDefault]⟩
  rcases hp : pruneLoop v0.launchTemplateId resp.launchTemplateVersions fuel
      [EC2Call.createVersion v0.launchTemplateId v0.versionNumber image_id,
       EC2Call.modifyDefault v0.launchTemplateId resp.createdVersionNumber]
    with ⟨calls2, done⟩
  rw [hp] at hd1
  simp only at hd1
  have hfc : (calls2.filter isCreate).length = 1 := by
    rw [hd1]
    simp [List.filter_append, isCreate,
          List.filter_eq_nil_iff.mpr (fun c hc => (hdel c hc).1)]
  have hfm : (calls2.filter isModifyDefault).length = 1 := by
    rw [hd1]
    simp [List.filter_append, isModifyDefault,
          List.filter_eq_nil_iff.mpr (fun c hc => (hdel c hc).2)]
  have ht : calls2.take 2 =
      [EC2Call.createVersion v0.launchTemplateId v0.versionNumber image_id,
       EC2Call.modifyDefault v0.launchTemplateId resp.createdVersionNumber] := by
    rw [hd1]
    rfl
  cases done with
  | true => exact ⟨_, rfl, ht, hfc, hfm⟩
  | false => exact ⟨_, rfl, ht, hfc, hfm⟩

/-- C4 witness: the amended statement evaluated on the `defaultNotFirst`
listing with a stale first element. -/
theorem stale_image_creates_once_and_promotes_witness :
    ∃ u, launch_template_versions ⟨defaultNotFirst, 6⟩ "ami-fresh" 5 = some u ∧
      u.calls.take 2 = [EC2Call.createVersion "lt-0abc" 1 "ami-fresh",
                        EC2Call.modifyDefault "lt-0abc" 6] ∧
      (u.calls.filter isCreate).length = 1 ∧
      (u.calls.filter isModifyDefault).length = 1 :=
  stale_image_creates_once_and_promotes ⟨defaultNotFirst, 6⟩ "ami-fresh" 5
    (ltv 1 "ami-old" false) [ltv 5 "ami-new" true] rfl (by decide)

/-- C5: on a non-empty listing the resolver returns the image id of an image
with maximal creation date, and every image listed before it has a strictly
smaller creation date (stable descending sort: the first of the tied maxima
wins); a single-element listing returns that element. -/
theorem get_latest_image_picks_first_newest (x : Image) (xs : List Image) :
    (∃ l₁ l₂ img, x :: xs = l₁ ++ img :: l₂ ∧
      get_latest_image (x :: xs) = some img.imageId ∧
      (∀ y ∈ x :: xs, dateLt img.creationDate y.creationDate = false) ∧
      (∀ y ∈ l₁, dateLt y.creationDate img.creationDate = true)) ∧
    get_latest_image [x] = some x.imageId := by
  constructor
  · obtain ⟨l₁, l₂, heq, hlt⟩ := firstMaxAux_split xs x
    refine ⟨l₁, l₂, firstMaxAux x xs, heq, get_latest_image_cons x xs, ?_, hlt⟩
    intro y hy
    rcases List.mem_cons.mp hy with hy | hy
    · rw [hy]
      exact (firstMaxAux_max xs x).1
    · exact (firstMaxAux_max xs x).2 y hy
  · rw [get_latest_image_cons]
    rfl

/-- C5 witness: on the listing `[imgA, imgB, imgC]`, where `imgB` and `imgC`
tie at the maximal date, the resolver picks `imgB` (the earlier listed). -/
theorem get_latest_image_picks_first_newest_witness :
    get_latest_image [imgA, imgB, imgC] = some "ami-b" ∧
    ((∃ l₁ l₂ img, imgA :: [imgB, imgC] = l₁ ++ img :: l₂ ∧
        get_latest_image (imgA :: [imgB, imgC]) = some img.imageId ∧
        (∀ y ∈ imgA :: [imgB, imgC], dateLt img.creationDate y.creationDate = false) ∧
        (∀ y ∈ l₁, dateLt y.creationDate img.creationDate = true)) ∧
      get_latest_image [imgA] = some imgA.imageId) :=
  ⟨by decide, get_latest_image_picks_first_newest imgA [imgB, imgC]⟩

theorem refreshLoop_no_failure (t : RotationResult) (gs : List ASGGroup) :
    ∀ calls, refreshLoop t (fun _ => none) gs calls =
      (calls ++ gs.map (fun g =>
        { autoScalingGroupName := g.autoScalingGroupName,
          strategy := "Rolling",
          launchTemplateId := t.template_id,
          version := t.new_template_version }), none) := by
  induction gs with
  | nil => intro calls; simp [refreshLoop]
  | cons g gs ih =>
    intro calls
    simp only [refreshLoop]
    rw [ih]
    simp

/-- C6: with no provider failure injected, the refresh trigger issues
exactly one refresh-start request per listed auto-scaling group — in listing
order, each with strategy `Rolling`, the rotation result's template id and
its new version number — and an empty listing (under any failure oracle)
issues none. -/
theorem trigger_refresh_one_rolling_call_per_group (groups : List ASGGroup)
    (t : RotationResult) :
    trigger_refresh groups t (fun _ => none) =
      (groups.map (fun g =>
        { autoScalingGroupName := g.autoScalingGroupName,
          strategy := "Rolling",
          launchTemplateId := t.template_id,
          version := t.new_template_version }), none) ∧
    ∀ fails, trigger_refresh [] t fails = ([], none) := by
  constructor
  · unfold trigger_refresh
    rw [refreshLoop_no_failure]
    simp
  · intro fails
    rfl

/-- C6 witness: two listed groups produce exactly two Rolling requests with
the rotation result's template id and version. -/
theorem trigger_refresh_one_rolling_call_per_group_witness :
    trigger_refresh [⟨"asg-a"⟩, ⟨"asg-b"⟩] ⟨"ami-old", "lt-0abc", 1, 12⟩
        (fun _ => none) =
      ([{ autoScalingGroupName := "asg-a", strategy := "Rolling",
          launchTemplateId := "lt-0abc", version := 12 },
        { autoScalingGroupName := "asg-b", strategy := "Rolling",
          launchTemplateId := "lt-0abc", version := 12 }], none) :=
  (trigger_refresh_one_rolling_call_per_group [⟨"asg-a"⟩, ⟨"asg-b"⟩]
    ⟨"ami-old", "lt-0abc", 1, 12⟩).1

/-- C7: in a run whose updater step returns no rotation result, the refresh
trigger is never invoked: the group listing is not requested and no
refresh-start request is issued. -/
theorem no_rotation_result_no_refresh (images : List Image) (resp : EC2Responses)
    (groups : List ASGGroup) (fails : String → Option String) (fuel : Nat)
    (image_id : String) (u : UpdaterRun)
    (h1 : get_latest_image images = some image_id)
    (h2 : launch_template_versions resp image_id fuel = some u)
    (h3 : u.completed = true) (h4 : u.result = none) :
    mainRun images resp groups fails fuel =
      some { ec2Calls := u.calls, asgListingCalled := false,
             refreshCalls := [], refreshError := none, completed := true } := by
  simp [mainRun, h1, h2, h3, h4]

/-- C7 witness: a run whose first listed version already carries the
resolved image never touches the autoscaling service. -/
theorem no_rotation_result_no_refresh_witness :
    mainRun [{ imageId := "ami-old", creationDate := "2024-01-01" }]
        ⟨defaultNotFirst, 6⟩ [⟨"asg-a"⟩] (fun _ => none) 3 =
      some { ec2Calls := [], asgListingCalled := false,
             refreshCalls := [], refreshError := none, completed := true } :=
  no_rotation_result_no_refresh _ _ _ _ _ "ami-old" ⟨[], none, true⟩ rfl rfl rfl rfl

/-- C8: an empty registry listing makes the resolver fail (the element-0
lookup), and `main` propagates the failure fatally without recovery; on any
non-empty listing the resolver succeeds, so the failure is unreachable. -/
theorem empty_image_listing_fatal :
    get_latest_image [] = none ∧
    (∀ (x : Image) (xs : List Image), (get_latest_image (x :: xs)).isSome = true) ∧
    (∀ (resp : EC2Responses) (groups : List ASGGroup)
        (fails : String → Option String) (fuel : Nat),
          mainRun [] resp groups fails fuel = none) := by
  refine ⟨rfl, ?_, ?_⟩
  · intro x xs
    rw [get_latest_image_cons]
    rfl
  · intro resp groups fails fuel
    rfl

/-- C8 witness: a non-empty listing resolves, and the empty-listing run of
`main` propagates the failure as `none`. -/
theorem empty_image_listing_fatal_witness :
    (get_latest_image [imgA, imgB]).isSome = true ∧
    mainRun [] ⟨defaultNotFirst, 6⟩ [] (fun _ => none) 1 = none :=
  ⟨empty_image_listing_fatal.2.1 imgA [imgB],
   empty_image_listing_fatal.2.2 ⟨defaultNotFirst, 6⟩ [] (fun _ => none) 1⟩

theorem refreshLoop_failure_aborts (t : RotationResult)
    (fails : String → Option String) (g : ASGGroup) (gs₂ : List ASGGroup)
    (e : String) (h2 : fails g.autoScalingGroupName = some e) :
    ∀ gs₁ : List ASGGroup, (∀ x ∈ gs₁, fails x.autoScalingGroupName = none) →
      ∀ calls, refreshLoop t fails (gs₁ ++ g :: gs₂) calls =
        (calls ++ gs₁.map (fun x =>
          { autoScalingGroupName := x.autoScalingGroupName,
            strategy := "Rolling",
            launchTemplateId := t.template_id,
            version := t.new_template_version }), some e) := by
  intro gs₁
  induction gs₁ with
  | nil =>
    intro _ calls
    simp only [List.nil_append, refreshLoop, h2]
    simp
  | cons a as ih =>
    intro h1 calls
    have ha : fails a.autoScalingGroupName = none := h1 a (List.mem_cons_self a as)
    simp only [List.cons_append, refreshLoop, ha, List.append_eq]
    rw [ih (fun x hx => h1 x (List.mem_cons_of_mem a hx))]
    simp

theorem pruneLoopF_no_fail (templateId : String) (versions : List LTVersion) :
    ∀ (fuel k : Nat) (calls : List EC2Call),
      pruneLoopF templateId versions (fun _ => none) fuel k calls =
        ((pruneLoop templateId versions fuel calls).1,
         if (pruneLoop templateId versions fuel calls).2 then LoopOutcome.exited
         else LoopOutcome.outOfFuel) := by
  intro fuel
  induction fuel with
  | zero =>
    intro k calls
    by_cases h : versions.length > 10
    · simp [pruneLoopF, pruneLoop, h, Nat.not_le.mpr h]
    · simp [pruneLoopF, pruneLoop, h, Nat.not_lt.mp h]
  | succ n ih =>
    intro k calls
    by_cases h : versions.length > 10
    · cases hlast : versions.getLast? with
      | some v => simp [pruneLoopF, pruneLoop, h, hlast, ih]
      | none => simp [pruneLoopF, pruneLoop, h, hlast]
    · simp [pruneLoopF, pruneLoop, h]

theorem launch_template_versions_f_no_fail (resp : EC2Responses)
    (image_id : String) (fuel : Nat) :
    launch_template_versions_f resp noFailEC2 image_id fuel =
      match launch_template_versions resp image_id fuel with
      | none => ([], UpdOutcome.indexError)
      | some u =>
        (u.calls, if u.completed then UpdOutcome.ok u.result
                  else UpdOutcome.outOfFuel) := by
  unfold launch_template_versions_f launch_template_versions noFailEC2
  cases hE : resp.launchTemplateVersions with
  | nil => rfl
  | cons v0 rest =>
    by_cases h : v0.imageId = image_id
    · simp [h]
    · simp only [h, ne_eq, not_false_eq_true, if_true, if_false]
      rw [pruneLoopF_no_fail]
      rcases hp : pruneLoop v0.launchTemplateId (v0 :: rest) fuel
          [EC2Call.createVersion v0.launchTemplateId v0.versionNumber image_id,
           EC2Call.modifyDefault v0.launchTemplateId resp.createdVersionNumber]
        with ⟨calls2, done⟩
      cases done with
      | true => simp [hp]
      | false => simp [hp]

/-- C9: every provider-call failure propagates to the caller as the very
same error value, with no retry and no rollback: in source order, a failing
`describe_images` ends the run with nothing issued; a failing
`describe_launch_template_versions` is re-raised unchanged before any
mutation; a failing `create_launch_template_version` is re-raised unchanged
after exactly one create attempt; a failing `modify_launch_template`
propagates with the committed create kept; a failing delete in the retention
loop propagates with create and modify kept; a failing
`describe_auto_scaling_groups` is re-raised unchanged with no refresh
request; a failing `start_instance_refresh` aborts the remaining groups,
keeping exactly one issued request per preceding group; and `main` passes an
updater error through unchanged, never reaching the refresh step. -/
theorem provider_failures_propagate_unchanged (images : List Image)
    (resp : EC2Responses) (groups : List ASGGroup) (t : RotationResult)
    (fuel : Nat) (image_id : String) (e : String)
    (v0 : LTVersion) (rest : List LTVersion)
    (h1 : resp.launchTemplateVersions = v0 :: rest) :
    (∀ ef af, mainRun_f (some e) images resp ef groups af fuel =
      ([], [], RunOutcome.raised e)) ∧
    (launch_template_versions_f resp
        ⟨some e, none, none, fun _ => none⟩ image_id fuel =
      ([], UpdOutcome.raised e)) ∧
    (v0.imageId ≠ image_id →
      launch_template_versions_f resp
          ⟨none, some e, none, fun _ => none⟩ image_id fuel =
        ([EC2Call.createVersion v0.launchTemplateId v0.versionNumber image_id],
         UpdOutcome.raised e)) ∧
    (v0.imageId ≠ image_id →
      launch_template_versions_f resp
          ⟨none, none, some e, fun _ => none⟩ image_id fuel =
        ([EC2Call.createVersion v0.launchTemplateId v0.versionNumber image_id,
          EC2Call.modifyDefault v0.launchTemplateId resp.createdVersionNumber],
         UpdOutcome.raised e)) ∧
    (v0.imageId ≠ image_id → resp.launchTemplateVersions.length > 10 →
      ∀ v, resp.launchTemplateVersions.getLast? = some v →
        launch_template_versions_f resp
            ⟨none, none, none, fun _ => some e⟩ image_id (fuel + 1) =
          ([EC2Call.createVersion v0.launchTemplateId v0.versionNumber image_id,
            EC2Call.modifyDefault v0.launchTemplateId resp.createdVersionNumber,
            EC2Call.deleteVersion v0.launchTemplateId v.versionNumber],
           UpdOutcome.raised e)) ∧
    (trigger_refresh_f groups t ⟨some e, fun _ => none⟩ = ([], some e)) ∧
    (∀ (fails : String → Option String) (gs₁ gs₂ : List ASGGroup) (g : ASGGroup),
      (∀ x ∈ gs₁, fails x.autoScalingGroupName = none) →
      fails g.autoScalingGroupName = some e →
      trigger_refresh_f (gs₁ ++ g :: gs₂) t ⟨none, fails⟩ =
        (gs₁.map (fun x =>
          { autoScalingGroupName := x.autoScalingGroupName,
            strategy := "Rolling",
            launchTemplateId := t.template_id,
            version := t.new_template_version }), some e)) ∧
    (get_latest_image images = some image_id →
      ∀ (ef : EC2Failures) (af : ASGFailures) (calls : List EC2Call),
        launch_template_versions_f resp ef image_id fuel =
            (calls, UpdOutcome.raised e) →
        mainRun_f none images resp ef groups af fuel =
          (calls, [], RunOutcome.raised e)) := by
  refine ⟨fun ef af => rfl, rfl, ?_, ?_, ?_, rfl, ?_, ?_⟩
  · intro h2
    simp [launch_template_versions_f, h1, h2]
  · intro h2
    simp [launch_template_versions_f, h1, h2]
  · intro h2 hlen v hv
    have hlen' : 10 < rest.length + 1 := by
      rw [h1] at hlen
      simpa using hlen
    simp [launch_template_versions_f, h1, h2, pruneLoopF, hlen', h1 ▸ hv]
  · intro fails gs₁ gs₂ g hok hfail
    unfold trigger_refresh_f
    simp only []
    rw [refreshLoop_failure_aborts t fails g gs₂ e hfail gs₁ hok []]
    simp
  · intro himg ef af calls hupd
    simp [mainRun_f, himg, hupd]

/-- C9 witness: a throttled delete in the retention loop propagates as the
identical error with the committed create and modify kept, and an
access-denied `start_instance_refresh` on the second of three groups aborts
the third, keeping the first group's single issued request. -/
theorem provider_failures_propagate_unchanged_witness :
    launch_template_versions_f ⟨elevenVersions, 12⟩
        ⟨none, none, none, fun _ => some "ThrottlingException"⟩ "ami-new" 3 =
      ([EC2Call.createVersion "lt-0abc" 1 "ami-new",
        EC2Call.modifyDefault "lt-0abc" 12,
        EC2Call.deleteVersion "lt-0abc" 11], UpdOutcome.raised "ThrottlingException") ∧
    trigger_refresh_f [⟨"asg-a"⟩, ⟨"asg-b"⟩, ⟨"asg-c"⟩] ⟨"ami-old", "lt-0abc", 1, 12⟩
        ⟨none, fun n => if n = "asg-b" then some "AccessDenied" else none⟩ =
      ([{ autoScalingGroupName := "asg-a", strategy := "Rolling",
          launchTemplateId := "lt-0abc", version := 12 }], some "AccessDenied") := by
  constructor
  · exact (provider_failures_propagate_unchanged [] ⟨elevenVersions, 12⟩ []
      ⟨"ami-old", "lt-0abc", 1, 12⟩ 2 "ami-new" "ThrottlingException"
      (ltv 1 "ami-old" false) _ rfl).2.2.2.2.1 (by decide) (by decide)
      (ltv 11 "ami-current" true) rfl
  · exact (provider_failures_propagate_unchanged [] ⟨elevenVersions, 12⟩ []
      ⟨"ami-old", "lt-0abc", 1, 12⟩ 2 "ami-new" "AccessDenied"
      (ltv 1 "ami-old" false) _ rfl).2.2.2.2.2.2.1
      (fun n => if n = "asg-b" then some "AccessDenied" else none)
      [⟨"asg-a"⟩] [⟨"asg-c"⟩] ⟨"asg-b"⟩ (by decide) (by decide)

/-- C10: every datum the updater consumes — the template id, the
SourceVersion of the created version, the image compared for staleness, and
the previous-default version reported in the rotation result — comes from
element 0 of the version listing, with no hypothesis at all on where the
DefaultVersion flag sits. -/
theorem updater_reads_only_first_listed (resp : EC2Responses) (image_id : String)
    (fuel : Nat) (v0 : LTVersion) (rest : List LTVersion)
    (h1 : resp.launchTemplateVersions = v0 :: rest) :
    (v0.imageId = image_id →
      launch_template_versions resp image_id fuel =
        some { calls := [], result := none, completed := true }) ∧
    (v0.imageId ≠ image_id →
      ∃ u, launch_template_versions resp image_id fuel = some u ∧
        u.calls.head? = some (EC2Call.createVersion v0.launchTemplateId
          v0.versionNumber image_id) ∧
        ∀ t, u.result = some t →
          t.template_id = v0.launchTemplateId ∧
          t.template_version = v0.versionNumber ∧
          t.current_image_id = v0.imageId ∧
          t.new_template_version = resp.createdVersionNumber) := by
  constructor
  · intro h2
    exact launch_template_versions_current resp image_id fuel v0 rest h1 h2
  · intro h2
    rw [launch_template_versions_stale resp image_id fuel v0 rest h1 h2]
    obtain ⟨dels, hd1, hd2⟩ := pruneLoop_calls_extend v0.launchTemplateId
      resp.launchTemplateVersions fuel
      [EC2Call.createVersion v0.launchTemplateId v0.versionNumber image_id,
       EC2Call.modifyDefault v0.launchTemplateId resp.createdVersionNumber]
    rcases hp : pruneLoop v0.launchTemplateId resp.launchTemplateVersions fuel
        [EC2Call.createVersion v0.launchTemplateId v0.versionNumber image_id,
         EC2Call.modifyDefault v0.launchTemplateId resp.createdVersionNumber]
      with ⟨calls2, done⟩
    rw [hp] at hd1
    simp only at hd1
    have hh : calls2.head? = some (EC2Call.createVersion v0.launchTemplateId
        v0.versionNumber image_id) := by
      rw [hd1]
      rfl
    cases done with
    | true =>
      refine ⟨_, rfl, hh, ?_⟩
      intro t ht
      cases ht
      exact ⟨rfl, rfl, rfl, rfl⟩
    | false =>
      refine ⟨_, rfl, hh, ?_⟩
      intro t ht
      exact Option.noConfusion ht

/-- C10 witness: on the `defaultNotFirst` listing — whose default flag sits
on the second element — the staleness comparison nevertheless uses element
0's image. -/
theorem updater_reads_only_first_listed_witness :
    launch_template_versions ⟨defaultNotFirst, 6⟩ "ami-old" 2 =
      some { calls := [], result := none, completed := true } :=
  (updater_reads_only_first_listed ⟨defaultNotFirst, 6⟩ "ami-old" 2
    (ltv 1 "ami-old" false) [ltv 5 "ami-new" true] rfl).1 rfl

end InstanceRefresh
